import Mathlib

/-!
Verification development for the SMHI event viewer repository.

The repository has two Python source files:

* `geocode_events.py` — the enrichment pipeline: `clean_number` coerces
  locale-formatted numerics, `fill_lat_lon` resolves missing coordinates via a
  cache-backed geocoder, and `main` orchestrates the pass and its statistics.
* `app.py` — the query layer: `load_events` loads and prunes the event store,
  year/decade labels are resolved to concrete year sets, and map-mode /
  time-lapse masks filter the in-memory table.

Rows, caches and statistics are embedded as explicit Lean structures; the
external geocoding service is a function parameter `g : String → Option (ℚ × ℚ)`
(`none` models both a provider error caught by `try/except` and "no match";
the rate limiter's retries and delays do not affect the returned value).
Pandas NaN / absent cells are modelled as `Option.none`.  Python floats are
modelled as rationals: every property proved here concerns equality,
presence/absence and counting, never rounding.
-/

/-- A canonical event row.  `latitude`/`longitude` model the `Latitude` /
`Longitude` columns (NaN = `none`), `location` the `Location` column (a
non-string / NaN cell is `none`), `sheet` the `Sheet` tag, `year` the derived
year column (NaN = `none`), and `rest` opaquely stands for all remaining
columns (name, date, measurements), which the enrichment closure never
writes. -/
structure Row where
  latitude : Option ℚ
  longitude : Option ℚ
  location : Option String
  sheet : Option String
  year : Option Int
  rest : String
deriving DecidableEq

/-- The run-scoped statistics dictionary `stats` of `geocode_events.main`. -/
structure Stats where
  rows_total : Nat
  rows_with_missing : Nat
  cache_hits : Nat
  api_queries : Nat
  locations_geocoded : Nat
  locations_unresolved : Nat
deriving DecidableEq

/-- Model of `geo_cache`: an association list from normalized location keys
to the stored `(Latitude, Longitude)` pair (entries are only ever added,
never overwritten, because insertion happens only after a failed lookup). -/
abbrev Cache := List (String × (Option ℚ × Option ℚ))

/-- Configuration constant `COUNTRY_SUFFIX = ", Sweden"`. -/
def COUNTRY_SUFFIX : String := ", Sweden"

/-- A raw spreadsheet cell as seen by `clean_number`: pandas NaN/None
(`absent`), a string, or an already-numeric value. -/
inductive CellVal where
  | absent : CellVal
  | str : String → CellVal
  | num : ℚ → CellVal
deriving DecidableEq

/-- Python `str.strip()` on a sequence of code points: drop whitespace from
both ends. -/
def pyStrip (cs : List Char) : List Char :=
  ((cs.dropWhile Char.isWhitespace).reverse.dropWhile Char.isWhitespace).reverse

/-- Python `str.replace(",", ".")`: the pattern is a single character, so the
replacement is exactly a character map. -/
def commaToDot (cs : List Char) : List Char :=
  cs.map (fun c => if c == ',' then '.' else c)

/-- Digits of a decimal literal read left to right. -/
def digitsToNat (ds : List Char) : Nat :=
  ds.foldl (fun n c => n * 10 + (c.toNat - '0'.toNat)) 0

/-- A non-empty all-digit character list. -/
def isDigits (ds : List Char) : Bool :=
  !ds.isEmpty && ds.all Char.isDigit

/-- Strip one optional leading sign, returning (negative?, rest). -/
def parseSign : List Char → Bool × List Char
  | '-' :: cs => (true, cs)
  | '+' :: cs => (false, cs)
  | cs => (false, cs)

/-- Parse the mantissa of a float literal: digits with at most one decimal
point and at least one digit overall. -/
def parseMantissa (cs : List Char) : Option ℚ :=
  match cs.splitOn '.' with
  | [ip] => if isDigits ip then some (digitsToNat ip) else none
  | [ip, fp] =>
      if (ip.all Char.isDigit && fp.all Char.isDigit) && !(ip.isEmpty && fp.isEmpty) then
        some ((digitsToNat ip : ℚ) + (digitsToNat fp : ℚ) / (10 : ℚ) ^ fp.length)
      else none
  | _ => none

/-- Python `float(·)` on a decimal literal (optional sign, optional fraction,
optional `e`/`E` exponent); `none` models the `ValueError` caught by
`clean_number`'s `try/except`.  (The builtin's extra forms — `inf`, `nan`,
digit-group underscores — are outside the data this pipeline parses and are
not modelled.) -/
def parseFloat (cs : List Char) : Option ℚ :=
  match parseSign cs with
  | (neg, cs1) =>
    match cs1.span (fun c => !(c == 'e' || c == 'E')) with
    | (mant, rest) =>
      match rest with
      | [] => (parseMantissa mant).map (fun q => if neg then -q else q)
      | _ :: expPart =>
        match parseSign expPart with
        | (eneg, ed) =>
          if isDigits ed then
            (parseMantissa mant).map (fun q =>
              (if neg then -q else q) *
                (10 : ℚ) ^ (if eneg then -(digitsToNat ed : Int) else (digitsToNat ed : Int)))
          else none

/-- Function `clean_number` from `geocode_events.py`: NaN or `""` gives
`None`; a string is stripped, commas become dots, then `float(...)`; parse
failure gives `None`; an already-numeric value passes through `float`
unchanged. -/
def clean_number : CellVal → Option ℚ
  | .absent => none
  | .str s => if s = "" then none else parseFloat (commaToDot (pyStrip s.data))
  | .num q => some q

/-- The normalized cache key `place.strip().lower()`. -/
def normKey (place : String) : String :=
  ⟨(pyStrip place.data).map Char.toLower⟩

/-- Function `fill_lat_lon` from `geocode_events.py`, with the cache and statistics
made explicit: returns the `(Latitude, Longitude)` pair written back to the
row, plus the updated cache and statistics.  `g` is the rate-limited
`geocode` callable; `g _ = none` covers both a caught exception and a
no-match `None` result. -/
def fill_lat_lon (g : String → Option (ℚ × ℚ)) (cache : Cache) (stats : Stats)
    (row : Row) : (Option ℚ × Option ℚ) × Cache × Stats :=
  if row.latitude.isSome && row.longitude.isSome then
    ((row.latitude, row.longitude), cache, stats)
  else
    match row.location with
    | none => ((row.latitude, row.longitude), cache, stats)
    | some place =>
      if pyStrip place.data = [] then
        ((row.latitude, row.longitude), cache, stats)
      else
        match List.lookup (normKey place) cache with
        | some v => (v, cache, { stats with cache_hits := stats.cache_hits + 1 })
        | none =>
          let stats1 := { stats with api_queries := stats.api_queries + 1 }
          match g (place ++ COUNTRY_SUFFIX) with
          | some (la, lo) =>
              ((some la, some lo), (normKey place, (some la, some lo)) :: cache,
               { stats1 with locations_geocoded := stats1.locations_geocoded + 1 })
          | none =>
              ((row.latitude, row.longitude),
               (normKey place, (row.latitude, row.longitude)) :: cache,
               { stats1 with locations_unresolved := stats1.locations_unresolved + 1 })

/-- One step of `events.apply(lambda r: pd.Series(fill_lat_lon(r)), axis=1)`:
the returned pair is written onto the `Latitude`/`Longitude` columns of that
row only. -/
def enrichRow (g : String → Option (ℚ × ℚ)) (cache : Cache) (stats : Stats)
    (row : Row) : Row × Cache × Stats :=
  let res := fill_lat_lon g cache stats row
  ({ row with latitude := res.1.1, longitude := res.1.2 }, res.2)

/-- The row-by-row traversal performed by `events.apply(..., axis=1)`,
threading the closure's shared `geo_cache` and `stats`. -/
def enrichGo (g : String → Option (ℚ × ℚ)) :
    Cache → Stats → List Row → List Row × Cache × Stats
  | cache, stats, [] => ([], cache, stats)
  | cache, stats, r :: rs =>
    let step := enrichRow g cache stats r
    let tail := enrichGo g step.2.1 step.2.2 rs
    (step.1 :: tail.1, tail.2)

/-- Predicate `missing_mask` for one row: `Latitude` is NaN or `Longitude`
is NaN. -/
def missingRow (r : Row) : Bool :=
  r.latitude.isNone || r.longitude.isNone

/-- Count `missing_mask.sum()`: how many rows miss at least one
coordinate. -/
def countMissing (rows : List Row) : Nat :=
  (rows.filter missingRow).length

/-- The statistics dictionary as initialized in `main` (counters zero,
totals from the data). -/
def initStats (rows : List Row) : Stats :=
  { rows_total := rows.length, rows_with_missing := countMissing rows,
    cache_hits := 0, api_queries := 0,
    locations_geocoded := 0, locations_unresolved := 0 }

/-- Steps 2 and 4 of `geocode_events.main`: count the rows missing
coordinates, and if any exist run `fill_lat_lon` over every row starting from
an empty cache, then recount (`missing_after`); when none are missing the
apply step is skipped and `missing_after = 0`.  Returns the enriched rows,
the final statistics, and `missing_after`. -/
def runEnrichment (g : String → Option (ℚ × ℚ)) (rows : List Row) :
    List Row × Stats × Nat :=
  if countMissing rows = 0 then (rows, initStats rows, 0)
  else
    let res := enrichGo g [] (initStats rows) rows
    (res.1, res.2.2, countMissing res.1)

/-- The normalized key of the cache consultation a row performs, if any: a
row with both coordinates, without a location string, or with a
whitespace-only location never reaches the cache. -/
def requestKey (r : Row) : Option String :=
  if r.latitude.isSome && r.longitude.isSome then none
  else
    match r.location with
    | none => none
    | some place =>
      if pyStrip place.data = [] then none else some (normKey place)

/-- Coordinates form a complete pair or an absent pair (never mixed). -/
def pairOk (r : Row) : Prop :=
  r.latitude.isSome = r.longitude.isSome

/-- Every stored cache value is a complete pair or a fully absent pair. -/
def cacheOk (c : Cache) : Prop :=
  ∀ kv ∈ c, kv.2.1.isSome = kv.2.2.isSome

/-- The set of distinct request keys of a row list that miss a given cache:
these are exactly the keys that will cost one external query each. -/
def newKeys (c : Cache) (rs : List Row) : Finset String :=
  ((rs.filterMap requestKey).filter (fun k => (List.lookup k c).isNone)).toFinset

-- -------------------------------------------------------------------
-- Query layer (app.py)
-- -------------------------------------------------------------------

/-- Function `load_events` from `app.py`, after the numeric coercion of
`Latitude`/`Longitude` (already reflected in the `Option ℚ` fields) and the
date→year derivation (reflected in `year`): `df.dropna(subset=["Latitude",
"Longitude"])` keeps exactly the rows having both coordinates. -/
def load_events (db : List Row) : List Row :=
  db.filter (fun r => r.latitude.isSome && r.longitude.isSome)

/-- List `all_years`: the sorted distinct non-NaN years of the loaded
table. -/
def all_years (df : List Row) : List Int :=
  ((df.filterMap Row.year).dedup).mergeSort (fun a b => decide (a ≤ b))

/-- List `decades`: the sorted distinct values `(y // 10) * 10` over the
data years (Python `//` is floor division). -/
def decades (ys : List Int) : List Int :=
  ((ys.map (fun y => Int.fdiv y 10 * 10)).dedup).mergeSort (fun a b => decide (a ≤ b))

/-- A selector label.  In the source these are the strings `str(y)` and
`f"{d}s"`; since a year label (decimal digits, optional sign) never ends in
`'s'` and decimal notation is injective, the string key set of
`label_to_years` is faithfully represented by this sum. -/
inductive Label where
  | year : Int → Label
  | decade : Int → Label
deriving DecidableEq

/-- The `label_to_years` dictionary of `app.py`, as the lookup function it
induces (`.get(label, [])` on a missing key gives `[]`): `str(y) ↦ [y]` for
each data year, `f"{d}s" ↦ [y ∈ all_years | d ≤ y ≤ d + 9]` for each decade
present in the data. -/
def label_to_years (ys : List Int) : Label → List Int
  | .year y => if ys.contains y then [y] else []
  | .decade d =>
      if (decades ys).contains d then
        ys.filter (fun y => decide (d ≤ y) && decide (y ≤ d + 9))
      else []

/-- The `selected_years` resolution in the sidebar: a non-empty label
selection resolves to the sorted union of each label's years; an empty
selection falls back to `all_years`. -/
def selected_years (ys : List Int) (labels : List Label) : List Int :=
  if labels.isEmpty then ys
  else ((labels.flatMap (label_to_years ys)).dedup).mergeSort (fun a b => decide (a ≤ b))

/-- Test `df["year"].isin(selected_years)` for one row (NaN is never
`isin`). -/
def yearIn (r : Row) (ys : List Int) : Bool :=
  match r.year with
  | some y => ys.contains y
  | none => false

/-- Test `df["Sheet"].isin(selected_types)` for one row (NaN is never
`isin`). -/
def sheetIn (r : Row) (ts : List String) : Bool :=
  match r.sheet with
  | some s => ts.contains s
  | none => false

/-- The MAP MODE filter: `mask = df["year"].isin(selected_years)`, and only
when `selected_types` is truthy (non-empty) is `mask &= df["Sheet"]
.isin(selected_types)` applied. -/
def map_filter (df : List Row) (selYears : List Int) (selTypes : List String) :
    List Row :=
  if selTypes.isEmpty then df.filter (fun r => yearIn r selYears)
  else df.filter (fun r => yearIn r selYears && sheetIn r selTypes)

/-- The year predicate of the time-lapse mask: `df["year"] <= year_tl` when
cumulative, `df["year"] == year_tl` otherwise (NaN compares false). -/
def tlYear (cumulative : Bool) (year_tl : Int) (r : Row) : Bool :=
  match r.year with
  | some y => if cumulative then decide (y ≤ year_tl) else y == year_tl
  | none => false

/-- The TIME-LAPSE filter `tl_mask`: the year predicate, conjoined with the
category membership test only when `selected_types_tl` is truthy. -/
def tl_filter (df : List Row) (year_tl : Int) (cumulative : Bool)
    (selTypes : List String) : List Row :=
  if selTypes.isEmpty then df.filter (tlYear cumulative year_tl)
  else df.filter (fun r => tlYear cumulative year_tl r && sheetIn r selTypes)

/-- The time-lapse result as the specification words it: exactly the rows
satisfying the year predicate AND `category ∈ selectedCategories` — with no
special case for an empty selection.  Kept separate from `tl_filter` (which
embeds the source) so the two can be compared. -/
def specTimelapse (df : List Row) (year_tl : Int) (cumulative : Bool)
    (selTypes : List String) : List Row :=
  df.filter (fun r => tlYear cumulative year_tl r && sheetIn r selTypes)

/-- The map-mode result as the specification words it: exactly the rows with
`year ∈ selectedYears AND category ∈ selectedCategories`, with the empty
category selection taken literally. -/
def specMap (df : List Row) (selYears : List Int) (selTypes : List String) :
    List Row :=
  df.filter (fun r => yearIn r selYears && sheetIn r selTypes)

-- -------------------------------------------------------------------
-- Concrete fixtures used by witnesses and counterexamples
-- -------------------------------------------------------------------

/-- A geocoder that always fails (provider error or no match). -/
def gNone : String → Option (ℚ × ℚ) := fun _ => none

/-- A geocoder that resolves every query to the same pair. -/
def gConst : String → Option (ℚ × ℚ) := fun _ => some (1, 2)

/-- A row with a partial coordinate pair and a location string. -/
def rowPartial : Row :=
  { latitude := some 5, longitude := none, location := some "x",
    sheet := none, year := none, rest := "a" }

/-- A row with no coordinates sharing the location of rowPartial. -/
def rowBlank : Row :=
  { latitude := none, longitude := none, location := some "x",
    sheet := none, year := none, rest := "b" }

/-- A second row with no coordinates sharing the location of rowPartial. -/
def rowBlankB : Row :=
  { latitude := none, longitude := none, location := some "x",
    sheet := none, year := none, rest := "e" }

/-- A row with a partial pair and no location string at all. -/
def rowNoLoc : Row :=
  { latitude := some 5, longitude := none, location := none,
    sheet := none, year := none, rest := "c" }

/-- A fully mappable rain event of year 2000. -/
def rowRain2000 : Row :=
  { latitude := some 1, longitude := some 2, location := some "Sthlm",
    sheet := some "rain", year := some 2000, rest := "d" }

/-- A one-row loaded table. -/
def exDf : List Row := [rowRain2000]

-- -------------------------------------------------------------------
-- Helper lemmas: fill_lat_lon case equations
-- -------------------------------------------------------------------

lemma fill_both {g c s} {r : Row}
    (h : (r.latitude.isSome && r.longitude.isSome) = true) :
    fill_lat_lon g c s r = ((r.latitude, r.longitude), c, s) := by
  simp [fill_lat_lon, h]

lemma fill_noloc {g c s} {r : Row}
    (h : (r.latitude.isSome && r.longitude.isSome) = false)
    (h2 : r.location = none) :
    fill_lat_lon g c s r = ((r.latitude, r.longitude), c, s) := by
  simp [fill_lat_lon, h, h2]

lemma fill_blank {g c s} {r : Row} {place : String}
    (h : (r.latitude.isSome && r.longitude.isSome) = false)
    (h2 : r.location = some place) (h3 : pyStrip place.data = []) :
    fill_lat_lon g c s r = ((r.latitude, r.longitude), c, s) := by
  simp [fill_lat_lon, h, h2, h3]

lemma fill_hit {g c s} {r : Row} {place : String} {v : Option ℚ × Option ℚ}
    (h : (r.latitude.isSome && r.longitude.isSome) = false)
    (h2 : r.location = some place) (h3 : ¬ pyStrip place.data = [])
    (h4 : List.lookup (normKey place) c = some v) :
    fill_lat_lon g c s r = (v, c, { s with cache_hits := s.cache_hits + 1 }) := by
  simp [fill_lat_lon, h, h2, h3, h4]

lemma fill_miss_success {g : String → Option (ℚ × ℚ)} {c s} {r : Row}
    {place : String} {la lo : ℚ}
    (h : (r.latitude.isSome && r.longitude.isSome) = false)
    (h2 : r.location = some place) (h3 : ¬ pyStrip place.data = [])
    (h4 : List.lookup (normKey place) c = none)
    (h5 : g (place ++ COUNTRY_SUFFIX) = some (la, lo)) :
    fill_lat_lon g c s r =
      ((some la, some lo), (normKey place, (some la, some lo)) :: c,
       { s with api_queries := s.api_queries + 1,
                locations_geocoded := s.locations_geocoded + 1 }) := by
  simp [fill_lat_lon, h, h2, h3, h4, h5]

lemma fill_miss_fail {g : String → Option (ℚ × ℚ)} {c s} {r : Row}
    {place : String}
    (h : (r.latitude.isSome && r.longitude.isSome) = false)
    (h2 : r.location = some place) (h3 : ¬ pyStrip place.data = [])
    (h4 : List.lookup (normKey place) c = none)
    (h5 : g (place ++ COUNTRY_SUFFIX) = none) :
    fill_lat_lon g c s r =
      ((r.latitude, r.longitude),
       (normKey place, (r.latitude, r.longitude)) :: c,
       { s with api_queries := s.api_queries + 1,
                locations_unresolved := s.locations_unresolved + 1 }) := by
  simp [fill_lat_lon, h, h2, h3, h4, h5]

-- -------------------------------------------------------------------
-- Helper lemmas: enrichRow and enrichGo structure
-- -------------------------------------------------------------------

lemma enrichRow_both {g c s} {r : Row}
    (h : (r.latitude.isSome && r.longitude.isSome) = true) :
    enrichRow g c s r = (r, c, s) := by
  simp [enrichRow, fill_both h]

lemma enrichRow_passthrough {g c s} {r : Row}
    (h : (r.latitude.isSome && r.longitude.isSome) = false)
    (h2 : requestKey r = none) :
    enrichRow g c s r = (r, c, s) := by
  unfold requestKey at h2
  rw [if_neg (by simp [h])] at h2
  match hl : r.location with
  | none => simp [enrichRow, fill_noloc h hl]
  | some place =>
      rw [hl] at h2
      by_cases h3 : pyStrip place.data = []
      · simp [enrichRow, fill_blank h hl h3]
      · simp [h3] at h2

lemma enrichGo_nil {g c s} : enrichGo g c s [] = ([], c, s) := rfl

lemma enrichGo_cons {g c s} {r : Row} {rs : List Row} :
    enrichGo g c s (r :: rs) =
      ((enrichRow g c s r).1 ::
         (enrichGo g (enrichRow g c s r).2.1 (enrichRow g c s r).2.2 rs).1,
       (enrichGo g (enrichRow g c s r).2.1 (enrichRow g c s r).2.2 rs).2) := by
  simp [enrichGo]

lemma enrichGo_length {g} : ∀ (rs : List Row) (c : Cache) (s : Stats),
    (enrichGo g c s rs).1.length = rs.length := by
  intro rs
  induction rs with
  | nil => intro c s; rfl
  | cons r rs ih => intro c s; simp [enrichGo_cons, ih]

lemma requestKey_missing {r : Row} {k : String} (h : requestKey r = some k) :
    (r.latitude.isSome && r.longitude.isSome) = false := by
  cases hb : (r.latitude.isSome && r.longitude.isSome) with
  | false => rfl
  | true => rw [requestKey, if_pos (by simp [hb])] at h; cases h

lemma requestKey_some {r : Row} {k : String} (h : requestKey r = some k) :
    ∃ place, r.location = some place ∧ ¬ pyStrip place.data = [] ∧
      k = normKey place := by
  have hb := requestKey_missing h
  unfold requestKey at h
  rw [if_neg (by simp [hb])] at h
  match hl : r.location with
  | none => rw [hl] at h; cases h
  | some place =>
      rw [hl] at h
      by_cases h3 : pyStrip place.data = []
      · simp [h3] at h
      · simp [h3] at h
        exact ⟨place, rfl, h3, h.symm⟩

lemma enrichRow_hit {g c s} {r : Row} {place : String} {v : Option ℚ × Option ℚ}
    (h : (r.latitude.isSome && r.longitude.isSome) = false)
    (h2 : r.location = some place) (h3 : ¬ pyStrip place.data = [])
    (h4 : List.lookup (normKey place) c = some v) :
    enrichRow g c s r = ({ r with latitude := v.1, longitude := v.2 }, c,
      { s with cache_hits := s.cache_hits + 1 }) := by
  simp [enrichRow, fill_hit h h2 h3 h4]

lemma enrichRow_miss_success {g : String → Option (ℚ × ℚ)} {c s} {r : Row}
    {place : String} {la lo : ℚ}
    (h : (r.latitude.isSome && r.longitude.isSome) = false)
    (h2 : r.location = some place) (h3 : ¬ pyStrip place.data = [])
    (h4 : List.lookup (normKey place) c = none)
    (h5 : g (place ++ COUNTRY_SUFFIX) = some (la, lo)) :
    enrichRow g c s r =
      ({ r with latitude := some la, longitude := some lo },
       (normKey place, (some la, some lo)) :: c,
       { s with api_queries := s.api_queries + 1,
                locations_geocoded := s.locations_geocoded + 1 }) := by
  simp [enrichRow, fill_miss_success h h2 h3 h4 h5]

lemma enrichRow_miss_fail {g : String → Option (ℚ × ℚ)} {c s} {r : Row}
    {place : String}
    (h : (r.latitude.isSome && r.longitude.isSome) = false)
    (h2 : r.location = some place) (h3 : ¬ pyStrip place.data = [])
    (h4 : List.lookup (normKey place) c = none)
    (h5 : g (place ++ COUNTRY_SUFFIX) = none) :
    enrichRow g c s r =
      ({ r with latitude := r.latitude, longitude := r.longitude },
       (normKey place, (r.latitude, r.longitude)) :: c,
       { s with api_queries := s.api_queries + 1,
                locations_unresolved := s.locations_unresolved + 1 }) := by
  simp [enrichRow, fill_miss_fail h h2 h3 h4 h5]

lemma fill_totals_frame (g : String → Option (ℚ × ℚ)) (c : Cache) (s : Stats)
    (r : Row) :
    (fill_lat_lon g c s r).2.2.rows_total = s.rows_total ∧
    (fill_lat_lon g c s r).2.2.rows_with_missing = s.rows_with_missing := by
  unfold fill_lat_lon
  repeat' split
  all_goals exact ⟨rfl, rfl⟩

lemma enrichGo_totals_frame {g} : ∀ (rs : List Row) (c : Cache) (s : Stats),
    (enrichGo g c s rs).2.2.rows_total = s.rows_total ∧
    (enrichGo g c s rs).2.2.rows_with_missing = s.rows_with_missing := by
  intro rs
  induction rs with
  | nil => intro c s; exact ⟨rfl, rfl⟩
  | cons r rs ih =>
    intro c s
    rw [enrichGo_cons]
    have h1 := ih (enrichRow g c s r).2.1 (enrichRow g c s r).2.2
    have h2 := fill_totals_frame g c s r
    have he : (enrichRow g c s r).2.2 = (fill_lat_lon g c s r).2.2 := rfl
    exact ⟨by rw [h1.1, he, h2.1], by rw [h1.2, he, h2.2]⟩

lemma countMissing_cons (r : Row) (rs : List Row) :
    countMissing (r :: rs) = (if missingRow r then 1 else 0) + countMissing rs := by
  unfold countMissing
  rw [List.filter_cons]
  by_cases h : missingRow r = true
  · simp [h, Nat.add_comm]
  · simp [h]

lemma notMissing_both {r : Row} (h : ¬ missingRow r = true) :
    (r.latitude.isSome && r.longitude.isSome) = true := by
  unfold missingRow at h
  cases hl : r.latitude <;> cases ho : r.longitude <;> simp_all

lemma enrichGo_missing_le {g} : ∀ (rs : List Row) (c : Cache) (s : Stats),
    countMissing (enrichGo g c s rs).1 ≤ countMissing rs := by
  intro rs
  induction rs with
  | nil => intro c s; simp [enrichGo_nil, countMissing]
  | cons r rs ih =>
    intro c s
    rw [enrichGo_cons]
    show countMissing ((enrichRow g c s r).1 :: _) ≤ _
    rw [countMissing_cons, countMissing_cons]
    have hr : (if missingRow (enrichRow g c s r).1 then 1 else 0) ≤
        (if missingRow r then 1 else 0) := by
      by_cases h : missingRow r = true
      · by_cases h0 : missingRow (enrichRow g c s r).1 = true <;> simp [h, h0]
      · rw [enrichRow_both (notMissing_both h)]
    exact Nat.add_le_add hr (ih _ _)

lemma lookup_cons_ne {k a : String} {b : Option ℚ × Option ℚ} {c : Cache}
    (h : (k == a) = false) :
    List.lookup k ((a, b) :: c) = List.lookup k c := by
  simp [List.lookup, h]

lemma fill_cache_stable {g c s} {r : Row} {k : String}
    {v : Option ℚ × Option ℚ} (h : List.lookup k c = some v) :
    List.lookup k (fill_lat_lon g c s r).2.1 = some v := by
  by_cases hb : (r.latitude.isSome && r.longitude.isSome) = true
  · rw [fill_both hb]; exact h
  · have hb' : (r.latitude.isSome && r.longitude.isSome) = false := by
      cases hx : (r.latitude.isSome && r.longitude.isSome)
      · rfl
      · exact absurd hx hb
    match hl : r.location with
    | none => rw [fill_noloc hb' hl]; exact h
    | some place =>
      by_cases h3 : pyStrip place.data = []
      · rw [fill_blank hb' hl h3]; exact h
      · cases h4 : List.lookup (normKey place) c with
        | some w => rw [fill_hit hb' hl h3 h4]; exact h
        | none =>
          have hk : (k == normKey place) = false := by
            cases hkb : (k == normKey place) with
            | false => rfl
            | true => rw [eq_of_beq hkb, h4] at h; cases h
          cases h5 : g (place ++ COUNTRY_SUFFIX) with
          | some p =>
              obtain ⟨la, lo⟩ := p
              rw [fill_miss_success hb' hl h3 h4 h5]
              rw [lookup_cons_ne hk]; exact h
          | none =>
              rw [fill_miss_fail hb' hl h3 h4 h5]
              rw [lookup_cons_ne hk]; exact h

lemma enrichGo_lookup_stable {g} : ∀ (rs : List Row) (c : Cache) (s : Stats)
    {k : String} {v : Option ℚ × Option ℚ},
    List.lookup k c = some v →
    List.lookup k (enrichGo g c s rs).2.1 = some v := by
  intro rs
  induction rs with
  | nil => intro c s k v h; simpa [enrichGo_nil] using h
  | cons r rs ih =>
    intro c s k v h
    rw [enrichGo_cons]
    have he : (enrichRow g c s r).2.1 = (fill_lat_lon g c s r).2.1 := rfl
    exact ih _ _ (by rw [he]; exact fill_cache_stable h)

lemma not_both_false {r : Row}
    (hb : ¬ (r.latitude.isSome && r.longitude.isSome) = true) :
    (r.latitude.isSome && r.longitude.isSome) = false := by
  cases hx : (r.latitude.isSome && r.longitude.isSome)
  · rfl
  · exact absurd hx hb

lemma enrichGo_request_lookup {g} : ∀ (rs : List Row) (c : Cache) (s : Stats),
    ∀ pr ∈ rs.zip (enrichGo g c s rs).1, ∀ k, requestKey pr.1 = some k →
      List.lookup k (enrichGo g c s rs).2.1 =
        some (pr.2.latitude, pr.2.longitude) := by
  intro rs
  induction rs with
  | nil => intro c s pr hpr; rw [enrichGo_nil] at hpr; simp at hpr
  | cons r rs ih =>
    intro c s pr hpr k hk
    simp only [enrichGo_cons, List.zip_cons_cons, List.mem_cons] at hpr
    simp only [enrichGo_cons]
    rcases hpr with h | h
    · subst h
      simp only at hk
      obtain ⟨place, hl, h3, hkey⟩ := requestKey_some hk
      have hb := requestKey_missing hk
      subst hkey
      cases h4 : List.lookup (normKey place) c with
      | some v =>
          rw [enrichRow_hit hb hl h3 h4]
          have hst := enrichGo_lookup_stable (g := g) rs c
            { s with cache_hits := s.cache_hits + 1 } h4
          simpa using hst
      | none =>
          cases h5 : g (place ++ COUNTRY_SUFFIX) with
          | some p =>
              obtain ⟨la, lo⟩ := p
              rw [enrichRow_miss_success hb hl h3 h4 h5]
              have hself : List.lookup (normKey place)
                  ((normKey place, ((some la : Option ℚ), (some lo : Option ℚ))) :: c) =
                  some (some la, some lo) := by
                simp [List.lookup]
              have hst := enrichGo_lookup_stable (g := g) rs
                ((normKey place, ((some la : Option ℚ), (some lo : Option ℚ))) :: c)
                { s with api_queries := s.api_queries + 1,
                         locations_geocoded := s.locations_geocoded + 1 } hself
              simpa using hst
          | none =>
              rw [enrichRow_miss_fail hb hl h3 h4 h5]
              have hself : List.lookup (normKey place)
                  ((normKey place, (r.latitude, r.longitude)) :: c) =
                  some (r.latitude, r.longitude) := by
                simp [List.lookup]
              have hst := enrichGo_lookup_stable (g := g) rs
                ((normKey place, (r.latitude, r.longitude)) :: c)
                { s with api_queries := s.api_queries + 1,
                         locations_unresolved := s.locations_unresolved + 1 } hself
              simpa using hst
    · exact ih _ _ pr h k hk

lemma lookup_cons_isNone (k a : String) (b : Option ℚ × Option ℚ) (c : Cache) :
    (List.lookup k ((a, b) :: c)).isNone =
      (!(k == a) && (List.lookup k c).isNone) := by
  cases hk : (k == a) <;> simp [List.lookup, hk]

lemma card_insert_erase {T : Finset String} {k : String} :
    (insert k T).card = (T.erase k).card + 1 := by
  by_cases hk : k ∈ T
  · rw [Finset.insert_eq_self.mpr hk, (Finset.card_erase_add_one hk)]
  · rw [Finset.card_insert_of_not_mem hk, Finset.erase_eq_of_not_mem hk]

lemma newKeys_insert {c : Cache} {rs : List Row} {r : Row} {k : String}
    (hk : requestKey r = some k) (h4 : (List.lookup k c).isNone = true)
    (res : Option ℚ × Option ℚ) :
    (newKeys c (r :: rs)).card = (newKeys ((k, res) :: c) rs).card + 1 := by
  have h1 : newKeys c (r :: rs) = insert k (newKeys c rs) := by
    simp [newKeys, List.filterMap_cons, hk, List.filter_cons, h4]
  have h2 : newKeys ((k, res) :: c) rs = (newKeys c rs).erase k := by
    apply Finset.ext
    intro x
    simp only [newKeys, List.mem_toFinset, List.mem_filter, Finset.mem_erase,
      lookup_cons_isNone, Bool.and_eq_true, Bool.not_eq_true', beq_eq_false_iff_ne,
      ne_eq]
    tauto
  rw [h1, h2, card_insert_erase]

lemma enrichGo_api {g} : ∀ (rs : List Row) (c : Cache) (s : Stats),
    (enrichGo g c s rs).2.2.api_queries = s.api_queries + (newKeys c rs).card := by
  intro rs
  induction rs with
  | nil => intro c s; simp [enrichGo_nil, newKeys]
  | cons r rs ih =>
    intro c s
    simp only [enrichGo_cons]
    cases hk : requestKey r with
    | none =>
      have hstep : enrichRow g c s r = (r, c, s) := by
        by_cases hb : (r.latitude.isSome && r.longitude.isSome) = true
        · exact enrichRow_both hb
        · exact enrichRow_passthrough (not_both_false hb) hk
      rw [hstep]
      have hnk : newKeys c (r :: rs) = newKeys c rs := by
        simp [newKeys, List.filterMap_cons, hk]
      rw [hnk]
      exact ih c s
    | some k =>
      obtain ⟨place, hl, h3, hkey⟩ := requestKey_some hk
      have hb := requestKey_missing hk
      subst hkey
      cases h4 : List.lookup (normKey place) c with
      | some v =>
        rw [enrichRow_hit hb hl h3 h4]
        have hnk : newKeys c (r :: rs) = newKeys c rs := by
          simp [newKeys, List.filterMap_cons, hk, List.filter_cons, h4]
        rw [hnk]
        have := ih c { s with cache_hits := s.cache_hits + 1 }
        simpa using this
      | none =>
        have h4n : (List.lookup (normKey place) c).isNone = true := by
          rw [h4]; rfl
        cases h5 : g (place ++ COUNTRY_SUFFIX) with
        | some p =>
            obtain ⟨la, lo⟩ := p
            rw [enrichRow_miss_success hb hl h3 h4 h5]
            have hih := ih ((normKey place, ((some la : Option ℚ), (some lo : Option ℚ))) :: c)
              { s with api_queries := s.api_queries + 1,
                       locations_geocoded := s.locations_geocoded + 1 }
            rw [newKeys_insert hk h4n ((some la : Option ℚ), (some lo : Option ℚ))]
            rw [hih]
            show s.api_queries + 1 + _ = s.api_queries + (_ + 1)
            omega
        | none =>
            rw [enrichRow_miss_fail hb hl h3 h4 h5]
            have hih := ih ((normKey place, (r.latitude, r.longitude)) :: c)
              { s with api_queries := s.api_queries + 1,
                       locations_unresolved := s.locations_unresolved + 1 }
            rw [newKeys_insert hk h4n (r.latitude, r.longitude)]
            rw [hih]
            show s.api_queries + 1 + _ = s.api_queries + (_ + 1)
            omega

lemma lookup_mem : ∀ {c : Cache} {k : String} {v : Option ℚ × Option ℚ},
    List.lookup k c = some v → ∃ a, (a, v) ∈ c := by
  intro c
  induction c with
  | nil => intro k v h; cases h
  | cons kv c ih =>
    intro k v h
    obtain ⟨a, b⟩ := kv
    by_cases hk : (k == a) = true
    · simp only [List.lookup, hk] at h
      exact ⟨a, by rw [← Option.some_inj.mp h]; exact List.mem_cons_self _ _⟩
    · rw [Bool.not_eq_true] at hk
      simp only [List.lookup, hk] at h
      obtain ⟨a2, hm⟩ := ih h
      exact ⟨a2, List.mem_cons_of_mem _ hm⟩

lemma contains_iff_mem {α} [BEq α] [LawfulBEq α] {l : List α} {a : α} :
    l.contains a = true ↔ a ∈ l := by
  unfold List.contains
  exact List.elem_iff

lemma contains_eq_false_of_not_mem {α} [BEq α] [LawfulBEq α] {l : List α}
    {a : α} (h : a ∉ l) : l.contains a = false := by
  cases hc : l.contains a
  · rfl
  · exact absurd (contains_iff_mem.mp hc) h

lemma mem_all_years {df : List Row} {y : Int} :
    y ∈ all_years df ↔ ∃ r ∈ df, r.year = some y := by
  unfold all_years
  rw [List.mem_mergeSort, List.mem_dedup, List.mem_filterMap]

-- -------------------------------------------------------------------
-- Helper lemmas: character-level rewriting (clean_number)
-- -------------------------------------------------------------------

lemma commaToDot_pres_ws (c : Char) :
    (if c == ',' then '.' else c).isWhitespace = c.isWhitespace := by
  by_cases h : (c == ',') = true
  · have hc : c = ',' := eq_of_beq h
    subst hc
    decide
  · rw [Bool.not_eq_true] at h
    simp [h]

lemma commaToDot_idem_char (c : Char) :
    (if (if c == ',' then '.' else c) == ',' then '.' else
      (if c == ',' then '.' else c)) = (if c == ',' then '.' else c) := by
  by_cases h : (c == ',') = true
  · have hc : c = ',' := eq_of_beq h
    subst hc
    decide
  · rw [Bool.not_eq_true] at h
    simp [h]

lemma pyStrip_commaToDot (l : List Char) :
    pyStrip (commaToDot l) = commaToDot (pyStrip l) := by
  have hpf : Char.isWhitespace ∘ (fun c => if c == ',' then '.' else c) =
      Char.isWhitespace := funext commaToDot_pres_ws
  unfold pyStrip commaToDot
  rw [List.dropWhile_map, hpf, List.reverse_map, List.dropWhile_map, hpf,
    List.reverse_map]

lemma commaToDot_idem (l : List Char) :
    commaToDot (commaToDot l) = commaToDot l := by
  unfold commaToDot
  rw [List.map_map]
  congr 1
  funext c
  exact commaToDot_idem_char c

-- -------------------------------------------------------------------
-- Claim theorems: query layer
-- -------------------------------------------------------------------

/-- C7: for every dataset, a decade label d offered by the selector resolves
to exactly the data years inside the closed interval from d to d + 9, and an
empty year-label selection resolves to the full list of data years — in
particular it is non-empty whenever the data has any year. -/
theorem C7_decade_and_empty_selection (ys : List Int) (d : Int)
    (hd : d ∈ decades ys) :
    (∀ y : Int, y ∈ label_to_years ys (.decade d) ↔
        y ∈ ys ∧ d ≤ y ∧ y ≤ d + 9) ∧
    selected_years ys [] = ys ∧
    (ys ≠ [] → selected_years ys [] ≠ []) := by
  refine ⟨?_, rfl, fun h => h⟩
  intro y
  simp only [label_to_years]
  rw [if_pos (contains_iff_mem.mpr hd)]
  rw [List.mem_filter]
  simp

/-- Witness for C7 at a concrete dataset: the 1990 decade of the year list
1990, 1995, 2003 resolves by the proved equivalence, and the empty selection
gives back the full year list. -/
theorem C7_witness :
    ((1995 : Int) ∈ label_to_years [1990, 1995, 2003] (.decade 1990) ↔
      (1995 : Int) ∈ ([1990, 1995, 2003] : List Int) ∧
        (1990 : Int) ≤ 1995 ∧ (1995 : Int) ≤ 1990 + 9) ∧
    selected_years [1990, 1995, 2003] [] = [1990, 1995, 2003] :=
  ⟨(C7_decade_and_empty_selection [1990, 1995, 2003] 1990
      (by unfold decades; exact List.mem_mergeSort.mpr (by decide))).1 1995,
   (C7_decade_and_empty_selection [1990, 1995, 2003] 1990
      (by unfold decades; exact List.mem_mergeSort.mpr (by decide))).2.1⟩

/-- C1 fails on the code: with an empty selected-categories collection both
the map-mode mask and the time-lapse mask skip the category conjunct
entirely, so on a one-row table the result is the full table, not the zero
rows the claim demands (the literal empty-set filter is computed alongside
for contrast). -/
theorem C1_counterexample :
    map_filter exDf [2000] [] = exDf ∧
    tl_filter exDf 2000 false [] = exDf ∧
    exDf ≠ [] ∧
    specMap exDf [2000] [] = [] ∧
    specTimelapse exDf 2000 false [] = [] := by decide

/-- C1 (amended): when the caller supplies an empty selected-categories
collection, the category filter is skipped and the query silently reverts to
all categories: the result equals the one obtained with every category of
the table selected, in both map mode and time-lapse mode. -/
theorem C1_empty_categories_reverts (df : List Row) (ys : List Int)
    (y : Int) (cum : Bool) (ts : List String)
    (h : ∀ r ∈ df, ∃ sh, r.sheet = some sh ∧ sh ∈ ts) :
    map_filter df ys [] = map_filter df ys ts ∧
    tl_filter df y cum [] = tl_filter df y cum ts := by
  have hsheet : ∀ r ∈ df, sheetIn r ts = true := by
    intro r hr
    obtain ⟨sh, hsh, hm⟩ := h r hr
    unfold sheetIn
    rw [hsh]
    exact contains_iff_mem.mpr hm
  rcases ts with _ | ⟨t, ts2⟩
  · exact ⟨rfl, rfl⟩
  · constructor
    · unfold map_filter
      rw [if_pos (show ([] : List String).isEmpty = true from rfl),
        if_neg (by simp)]
      refine List.filter_congr ?_
      intro r hr
      rw [hsheet r hr, Bool.and_true]
    · unfold tl_filter
      rw [if_pos (show ([] : List String).isEmpty = true from rfl),
        if_neg (by simp)]
      refine List.filter_congr ?_
      intro r hr
      rw [hsheet r hr, Bool.and_true]

/-- Witness for the amended C1 on the concrete one-row table. -/
theorem C1_amended_witness :
    map_filter exDf [2000] [] = map_filter exDf [2000] ["rain"] ∧
    tl_filter exDf 2000 true [] = tl_filter exDf 2000 true ["rain"] :=
  C1_empty_categories_reverts exDf [2000] 2000 true ["rain"]
    (by
      intro r hr
      rw [List.mem_singleton.mp hr]
      exact ⟨"rain", rfl, by decide⟩)

/-- C6 fails on the code for the empty category selection: the time-lapse
mask then drops the category conjunct, so it returns the full one-row table
while the claimed exact set (year at most 2005 and category in the empty
selection) is empty. -/
theorem C6_counterexample :
    tl_filter exDf 2005 true [] = exDf ∧
    specTimelapse exDf 2005 true [] = [] ∧
    exDf ≠ [] := by decide

/-- C6 (amended): for a non-empty category selection the time-lapse query
returns exactly the rows passing the year predicate (at most the target year
when cumulative, equal to it otherwise) and having their category in the
selection; and for every selection (empty ones included) the cumulative
time-lapse equals map mode called with the data years at most the target
year. -/
theorem C6_timelapse_semantics (df : List Row) (y : Int) (cum : Bool)
    (sel : List String) (h : sel ≠ []) :
    tl_filter df y cum sel = specTimelapse df y cum sel ∧
    (∀ sel2 : List String,
        tl_filter df y true sel2 =
          map_filter df ((all_years df).filter (fun yy => decide (yy ≤ y))) sel2) := by
  constructor
  · have hne : ¬ sel.isEmpty = true := by
      cases sel with
      | nil => exact absurd rfl h
      | cons a l => simp
    unfold tl_filter specTimelapse
    rw [if_neg hne]
  · intro sel2
    have hyear : ∀ r ∈ df, tlYear true y r =
        yearIn r ((all_years df).filter (fun yy => decide (yy ≤ y))) := by
      intro r hr
      cases hy : r.year with
      | none => simp [tlYear, yearIn, hy]
      | some yy =>
          have hiff : ((all_years df).filter (fun z => decide (z ≤ y))).contains yy =
              decide (yy ≤ y) := by
            by_cases hle : yy ≤ y
            · rw [decide_eq_true hle]
              exact contains_iff_mem.mpr (List.mem_filter.mpr
                ⟨mem_all_years.mpr ⟨r, hr, hy⟩, decide_eq_true hle⟩)
            · rw [decide_eq_false hle]
              refine contains_eq_false_of_not_mem ?_
              intro hmem
              exact hle (of_decide_eq_true (List.mem_filter.mp hmem).2)
          simp only [tlYear, yearIn, hy]
          rw [if_pos trivial]
          exact hiff.symm
    unfold tl_filter map_filter
    rcases sel2 with _ | ⟨t, ts2⟩
    · rw [if_pos (show ([] : List String).isEmpty = true from rfl),
        if_pos (show ([] : List String).isEmpty = true from rfl)]
      exact List.filter_congr (fun r hr => hyear r hr)
    · rw [if_neg (show ¬ (t :: ts2).isEmpty = true by simp),
        if_neg (show ¬ (t :: ts2).isEmpty = true by simp)]
      exact List.filter_congr (fun r hr => by rw [hyear r hr])

/-- Witness for the amended C6 on the concrete one-row table with a
non-empty selection. -/
theorem C6_witness :
    tl_filter exDf 2005 true ["rain"] = specTimelapse exDf 2005 true ["rain"] :=
  (C6_timelapse_semantics exDf 2005 true ["rain"] (by decide)).1

/-- C10: loading the event store keeps exactly the rows having both
coordinates, so every row any query filters over has a present latitude and
longitude, and the dropped (unresolved) rows are invisible to map-mode and
time-lapse queries alike. -/
theorem C10_load_events_complete (db : List Row) :
    (∀ r ∈ load_events db, r.latitude.isSome = true ∧ r.longitude.isSome = true) ∧
    (∀ r : Row, r ∈ load_events db ↔
        r ∈ db ∧ r.latitude.isSome = true ∧ r.longitude.isSome = true) ∧
    (∀ (ys : List Int) (ts : List String) (r : Row),
        r ∈ map_filter (load_events db) ys ts →
        r.latitude.isSome = true ∧ r.longitude.isSome = true) ∧
    (∀ (y : Int) (cum : Bool) (ts : List String) (r : Row),
        r ∈ tl_filter (load_events db) y cum ts →
        r.latitude.isSome = true ∧ r.longitude.isSome = true) := by
  have hmem : ∀ r : Row, r ∈ load_events db ↔
      r ∈ db ∧ r.latitude.isSome = true ∧ r.longitude.isSome = true := by
    intro r
    unfold load_events
    rw [List.mem_filter]
    simp [Bool.and_eq_true, and_assoc]
  have hboth : ∀ r ∈ load_events db,
      r.latitude.isSome = true ∧ r.longitude.isSome = true :=
    fun r hr => ((hmem r).mp hr).2
  refine ⟨hboth, hmem, ?_, ?_⟩
  · intro ys ts r hr
    apply hboth
    unfold map_filter at hr
    split at hr
    · exact (List.mem_filter.mp hr).1
    · exact (List.mem_filter.mp hr).1
  · intro y cum ts r hr
    apply hboth
    unfold tl_filter at hr
    split at hr
    · exact (List.mem_filter.mp hr).1
    · exact (List.mem_filter.mp hr).1

/-- Witness for C10 at a concrete two-row store: the mappable row survives
loading and indeed carries both coordinates. -/
theorem C10_witness :
    rowRain2000.latitude.isSome = true ∧ rowRain2000.longitude.isSome = true :=
  (C10_load_events_complete [rowPartial, rowRain2000]).1 rowRain2000 (by decide)

/-- C8: clean_number is a total function; a comma-separated numeric string
parses to exactly what its dot-separated form parses to; NaN and the empty
string give an absent value; any string whose rewritten form fails to parse
gives an absent value; and the concrete string with the digits four-eight,
a comma, and five yields forty-eight and a half. -/
theorem C8_clean_number_total (s : String) :
    clean_number (.str ⟨commaToDot s.data⟩) = clean_number (.str s) ∧
    clean_number .absent = none ∧
    clean_number (.str "") = none ∧
    (parseFloat (commaToDot (pyStrip s.data)) = none →
      clean_number (.str s) = none) ∧
    clean_number (.str "48,5") = some ((48 : ℚ) + 5 / 10 ^ 1) ∧
    (48 : ℚ) + 5 / 10 ^ 1 = 97 / 2 := by
  refine ⟨?_, rfl, rfl, ?_, by rfl, by norm_num⟩
  · by_cases hs : s = ""
    · subst hs
      rfl
    · have hd : ¬ (⟨commaToDot s.data⟩ : String) = "" := by
        intro hmk
        apply hs
        have h1 : commaToDot s.data = [] := congrArg String.data hmk
        unfold commaToDot at h1
        exact String.ext (by rw [List.map_eq_nil.mp h1])
      show (if (⟨commaToDot s.data⟩ : String) = "" then none else
          parseFloat (commaToDot (pyStrip (String.data ⟨commaToDot s.data⟩)))) = _
      rw [if_neg hd]
      show parseFloat (commaToDot (pyStrip (commaToDot s.data))) = _
      rw [pyStrip_commaToDot, commaToDot_idem]
      show _ = (if s = "" then none else parseFloat (commaToDot (pyStrip s.data)))
      rw [if_neg hs]
  · intro h
    show (if s = "" then none else parseFloat (commaToDot (pyStrip s.data))) = none
    by_cases hs : s = ""
    · rw [if_pos hs]
    · rw [if_neg hs]; exact h

/-- Witness for C8: a non-numeric string is absorbed into an absent value
through the parse-failure implication. -/
theorem C8_witness :
    clean_number (.str "abc") = none :=
  (C8_clean_number_total "abc").2.2.2.1 (by rfl)

-- -------------------------------------------------------------------
-- Claim theorems: enrichment pipeline
-- -------------------------------------------------------------------

lemma missing_of_requestKey {r : Row} {k : String} (h : requestKey r = some k) :
    missingRow r = true := by
  have hb := requestKey_missing h
  unfold missingRow
  cases hl : r.latitude with
  | none => rfl
  | some a =>
    cases ho : r.longitude with
    | none => rfl
    | some b =>
      rw [hl, ho] at hb
      simp at hb

/-- C2: within one pipeline run, any two resolution requests (rows that
reach the cache, missing a coordinate and carrying a usable location) whose
normalized keys agree receive identical coordinate results, and the
external-query counter ends at exactly the number of distinct normalized
request keys: one external query per key, every later request with that key
being a cache hit. -/
theorem C2_cache_correctness (g : String → Option (ℚ × ℚ)) (rows : List Row)
    (pr qr : Row × Row) (k : String)
    (hp : pr ∈ rows.zip (runEnrichment g rows).1)
    (hq : qr ∈ rows.zip (runEnrichment g rows).1)
    (hkp : requestKey pr.1 = some k) (hkq : requestKey qr.1 = some k) :
    (pr.2.latitude, pr.2.longitude) = (qr.2.latitude, qr.2.longitude) ∧
    (runEnrichment g rows).2.1.api_queries =
      ((rows.filterMap requestKey).toFinset).card := by
  by_cases h0 : countMissing rows = 0
  · exfalso
    have hmem : pr.1 ∈ rows := (List.of_mem_zip hp).1
    have hcon : pr.1 ∈ rows.filter missingRow :=
      List.mem_filter.mpr ⟨hmem, missing_of_requestKey hkp⟩
    unfold countMissing at h0
    rw [List.length_eq_zero] at h0
    rw [h0] at hcon
    exact absurd hcon (List.not_mem_nil _)
  · have hrun1 : (runEnrichment g rows).1 = (enrichGo g [] (initStats rows) rows).1 := by
      simp [runEnrichment, h0]
    have hrun2 : (runEnrichment g rows).2.1 =
        (enrichGo g [] (initStats rows) rows).2.2 := by
      simp [runEnrichment, h0]
    rw [hrun1] at hp hq
    rw [hrun2]
    constructor
    · have h1 := enrichGo_request_lookup (g := g) rows [] (initStats rows) pr hp k hkp
      have h2 := enrichGo_request_lookup (g := g) rows [] (initStats rows) qr hq k hkq
      rw [h1] at h2
      exact Option.some_inj.mp h2
    · rw [enrichGo_api rows [] (initStats rows)]
      have hflt : (rows.filterMap requestKey).filter
          (fun k2 => (List.lookup k2 ([] : Cache)).isNone) =
          rows.filterMap requestKey := by
        rw [List.filter_congr
          (fun x _ => (rfl : ((List.lookup x ([] : Cache)).isNone) = true))]
        exact List.filter_true _
      show (initStats rows).api_queries + (newKeys [] rows).card = _
      unfold newKeys
      rw [hflt]
      show 0 + _ = _
      rw [Nat.zero_add]

/-- Witness for C2 on two rows sharing one location: both receive the
geocoded pair and the counter equals the one distinct key. -/
theorem C2_witness :
    (({ rowBlank with latitude := some (1 : ℚ), longitude := some (2 : ℚ) } : Row).latitude,
     ({ rowBlank with latitude := some (1 : ℚ), longitude := some (2 : ℚ) } : Row).longitude) =
      (({ rowBlankB with latitude := some (1 : ℚ), longitude := some (2 : ℚ) } : Row).latitude,
       ({ rowBlankB with latitude := some (1 : ℚ), longitude := some (2 : ℚ) } : Row).longitude) ∧
    (runEnrichment gConst [rowBlank, rowBlankB]).2.1.api_queries =
      (([rowBlank, rowBlankB].filterMap requestKey).toFinset).card :=
  C2_cache_correctness gConst [rowBlank, rowBlankB]
    (rowBlank, { rowBlank with latitude := some (1 : ℚ), longitude := some (2 : ℚ) })
    (rowBlankB, { rowBlankB with latitude := some (1 : ℚ), longitude := some (2 : ℚ) })
    (normKey "x") (by decide) (by decide) (by decide) (by decide)

/-- C3 fails on the code: with a geocoder that never resolves, the second of
two rows sharing a location receives the first row's partial pair from the
cache — its latitude changes from absent to present although no location was
ever successfully geocoded, so its coordinates are not left as they were. -/
theorem C3_counterexample :
    rowBlank.latitude = none ∧
    (runEnrichment gNone [rowPartial, rowBlank]).1.map
        (fun r => (r.latitude, r.longitude)) =
      [(some 5, none), (some 5, none)] ∧
    (runEnrichment gNone [rowPartial, rowBlank]).2.1.locations_geocoded = 0 := by
  decide

/-- C3 (amended): when a resolution ends Unresolved at a cache miss, the
row itself keeps exactly its previous coordinates, the failure is absorbed
(the embedding is total), and the unresolved statistic is incremented; but
the unchanged pair is stored in the cache under the normalized key, so any
later candidate row with that key receives the first row's pair through a
cache hit, which can change that row's coordinates. -/
theorem C3_unresolved_behaviour (g : String → Option (ℚ × ℚ)) (c : Cache)
    (s : Stats) (r : Row) (place : String)
    (h : (r.latitude.isSome && r.longitude.isSome) = false)
    (h2 : r.location = some place) (h3 : ¬ pyStrip place.data = [])
    (h4 : List.lookup (normKey place) c = none)
    (h5 : g (place ++ COUNTRY_SUFFIX) = none) :
    enrichRow g c s r =
      (r, (normKey place, (r.latitude, r.longitude)) :: c,
       { s with api_queries := s.api_queries + 1,
                locations_unresolved := s.locations_unresolved + 1 }) ∧
    (∀ r2 : Row, requestKey r2 = some (normKey place) →
        (enrichRow g ((normKey place, (r.latitude, r.longitude)) :: c) s r2).1 =
          { r2 with latitude := r.latitude, longitude := r.longitude }) := by
  constructor
  · rw [enrichRow_miss_fail h h2 h3 h4 h5]
  · intro r2 hk2
    obtain ⟨place2, hl2, h32, hkey2⟩ := requestKey_some hk2
    have hb2 := requestKey_missing hk2
    have hlk : List.lookup (normKey place2)
        ((normKey place, (r.latitude, r.longitude)) :: c) =
        some (r.latitude, r.longitude) := by
      rw [← hkey2]
      simp [List.lookup]
    rw [enrichRow_hit hb2 hl2 h32 hlk]

/-- Witness for the amended C3: the first row of the concrete failing run
keeps its partial pair, pays the one query, and is counted unresolved. -/
theorem C3_witness :
    enrichRow gNone [] (initStats [rowPartial, rowBlank]) rowPartial =
      (rowPartial, [(normKey "x", ((some 5 : Option ℚ), (none : Option ℚ)))],
       { rows_total := 2, rows_with_missing := 2, cache_hits := 0,
         api_queries := 1, locations_geocoded := 0, locations_unresolved := 1 }) :=
  (C3_unresolved_behaviour gNone [] (initStats [rowPartial, rowBlank]) rowPartial "x"
    (by decide) rfl (by decide) rfl rfl).1

/-- C4 fails on the code: a row entering with only a latitude and no usable
location passes through unchanged, so the enriched dataset pairs a present
latitude with an absent longitude. -/
theorem C4_counterexample :
    (runEnrichment gNone [rowNoLoc]).1 = [rowNoLoc] ∧
    rowNoLoc.latitude.isSome = true ∧ rowNoLoc.longitude.isSome = false := by
  decide

lemma fill_pairOk {g c s} {r : Row} (hc : cacheOk c)
    (hr : r.latitude.isSome = r.longitude.isSome) :
    ((fill_lat_lon g c s r).1.1.isSome = (fill_lat_lon g c s r).1.2.isSome) ∧
    cacheOk (fill_lat_lon g c s r).2.1 := by
  by_cases hb : (r.latitude.isSome && r.longitude.isSome) = true
  · rw [fill_both hb]; exact ⟨hr, hc⟩
  · have hb' := not_both_false hb
    match hl : r.location with
    | none => rw [fill_noloc hb' hl]; exact ⟨hr, hc⟩
    | some place =>
      by_cases h3 : pyStrip place.data = []
      · rw [fill_blank hb' hl h3]; exact ⟨hr, hc⟩
      · cases h4 : List.lookup (normKey place) c with
        | some v =>
            rw [fill_hit hb' hl h3 h4]
            obtain ⟨a, hm⟩ := lookup_mem h4
            exact ⟨hc _ hm, hc⟩
        | none =>
            cases h5 : g (place ++ COUNTRY_SUFFIX) with
            | some p =>
                obtain ⟨la, lo⟩ := p
                rw [fill_miss_success hb' hl h3 h4 h5]
                refine ⟨rfl, ?_⟩
                intro kv hkv
                rcases List.mem_cons.mp hkv with heq | hm
                · rw [heq]; rfl
                · exact hc _ hm
            | none =>
                rw [fill_miss_fail hb' hl h3 h4 h5]
                refine ⟨hr, ?_⟩
                intro kv hkv
                rcases List.mem_cons.mp hkv with heq | hm
                · rw [heq]; exact hr
                · exact hc _ hm

lemma enrichGo_pairOk {g} : ∀ (rs : List Row) (c : Cache) (s : Stats),
    cacheOk c → (∀ r ∈ rs, r.latitude.isSome = r.longitude.isSome) →
    ∀ r2 ∈ (enrichGo g c s rs).1, r2.latitude.isSome = r2.longitude.isSome := by
  intro rs
  induction rs with
  | nil => intro c s _ _ r2 h; simp [enrichGo_nil] at h
  | cons r rs ih =>
    intro c s hc hall r2 h2
    simp only [enrichGo_cons, List.mem_cons] at h2
    rcases h2 with h | h
    · have hf := fill_pairOk (g := g) (s := s) hc (hall r (List.mem_cons_self _ _))
      rw [h]
      exact hf.1
    · exact ih _ _
        (fill_pairOk (g := g) (s := s) hc (hall r (List.mem_cons_self _ _))).2
        (fun r3 h3 => hall r3 (List.mem_cons_of_mem _ h3)) r2 h

/-- C4 (amended): the never-mixed invariant holds conditionally — if every
input row enters with a complete pair or a fully absent pair, then every
output row of the enrichment leaves with a complete pair or a fully absent
pair; rows entering with a partial pair keep it (and can propagate it
through the cache), as the counterexample shows. -/
theorem C4_pair_integrity (g : String → Option (ℚ × ℚ)) (rows : List Row)
    (h : ∀ r ∈ rows, r.latitude.isSome = r.longitude.isSome) :
    ∀ r2 ∈ (runEnrichment g rows).1,
      r2.latitude.isSome = r2.longitude.isSome := by
  intro r2 h2
  by_cases h0 : countMissing rows = 0
  · simp [runEnrichment, h0] at h2
    exact h r2 h2
  · simp [runEnrichment, h0] at h2
    exact enrichGo_pairOk rows [] (initStats rows)
      (fun kv hkv => absurd hkv (List.not_mem_nil _)) h r2 h2

/-- Witness for the amended C4: a resolved row of a concrete well-paired
run carries a complete pair. -/
theorem C4_witness :
    ({ rowBlank with latitude := some (1 : ℚ), longitude := some (2 : ℚ) } : Row).latitude.isSome =
      ({ rowBlank with latitude := some (1 : ℚ), longitude := some (2 : ℚ) } : Row).longitude.isSome :=
  C4_pair_integrity gConst [rowBlank, rowRain2000] (by decide)
    { rowBlank with latitude := some 1, longitude := some 2 } (by decide)

lemma countMissing_le_length (rows : List Row) : countMissing rows ≤ rows.length :=
  List.length_filter_le _ _

/-- C5: after every enrichment run the reported statistics satisfy the chain
still-missing at most initially-missing at most total rows: the pass never
removes a coordinate from a complete row, and the initial missing count is a
filter of the row list. -/
theorem C5_statistics_ordering (g : String → Option (ℚ × ℚ)) (rows : List Row) :
    (runEnrichment g rows).2.2 ≤ (runEnrichment g rows).2.1.rows_with_missing ∧
    (runEnrichment g rows).2.1.rows_with_missing ≤
      (runEnrichment g rows).2.1.rows_total := by
  unfold runEnrichment
  by_cases h0 : countMissing rows = 0
  · rw [if_pos h0]
    refine ⟨Nat.zero_le _, ?_⟩
    show countMissing rows ≤ rows.length
    exact countMissing_le_length rows
  · rw [if_neg h0]
    constructor
    · show countMissing (enrichGo g [] (initStats rows) rows).1 ≤
        (enrichGo g [] (initStats rows) rows).2.2.rows_with_missing
      rw [(enrichGo_totals_frame rows [] (initStats rows)).2]
      show _ ≤ countMissing rows
      exact enrichGo_missing_le rows [] (initStats rows)
    · show (enrichGo g [] (initStats rows) rows).2.2.rows_with_missing ≤
        (enrichGo g [] (initStats rows) rows).2.2.rows_total
      rw [(enrichGo_totals_frame rows [] (initStats rows)).1,
        (enrichGo_totals_frame rows [] (initStats rows)).2]
      show countMissing rows ≤ rows.length
      exact countMissing_le_length rows

lemma enrichGo_append {g} : ∀ (xs : List Row) (c : Cache) (s : Stats)
    (ys : List Row),
    enrichGo g c s (xs ++ ys) =
      ((enrichGo g c s xs).1 ++
         (enrichGo g (enrichGo g c s xs).2.1 (enrichGo g c s xs).2.2 ys).1,
       (enrichGo g (enrichGo g c s xs).2.1 (enrichGo g c s xs).2.2 ys).2) := by
  intro xs
  induction xs with
  | nil => intro c s ys; simp [enrichGo_nil]
  | cons x xs ih =>
    intro c s ys
    simp only [List.cons_append, enrichGo_cons, ih]

/-- C9: a row that already has both coordinates, and a row that is missing a
coordinate but has no usable location string, pass through with row, cache
and statistics untouched; the per-row write changes only the two coordinate
columns of that row; and the traversal splits at any point, so a row's
output depends on earlier rows only through the threaded cache and
statistics. -/
theorem C9_row_locality (g : String → Option (ℚ × ℚ)) (c : Cache) (s : Stats)
    (r : Row) (xs ys : List Row) :
    ((r.latitude.isSome && r.longitude.isSome) = true →
        enrichRow g c s r = (r, c, s)) ∧
    ((r.latitude.isSome && r.longitude.isSome) = false → requestKey r = none →
        enrichRow g c s r = (r, c, s)) ∧
    ((enrichRow g c s r).1.location = r.location ∧
     (enrichRow g c s r).1.sheet = r.sheet ∧
     (enrichRow g c s r).1.year = r.year ∧
     (enrichRow g c s r).1.rest = r.rest) ∧
    (enrichGo g c s (xs ++ ys)).1 =
      (enrichGo g c s xs).1 ++
        (enrichGo g (enrichGo g c s xs).2.1 (enrichGo g c s xs).2.2 ys).1 := by
  refine ⟨fun h => enrichRow_both h, fun h h2 => enrichRow_passthrough h h2,
    ⟨rfl, rfl, rfl, rfl⟩, ?_⟩
  rw [enrichGo_append]

/-- Witness for C9: a fully mappable row passes through a concrete step
untouched. -/
theorem C9_witness :
    enrichRow gNone [] (initStats [rowRain2000]) rowRain2000 =
      (rowRain2000, [], initStats [rowRain2000]) :=
  (C9_row_locality gNone [] (initStats [rowRain2000]) rowRain2000 [] []).1 (by decide)
